import Mathlib

/-!
Shallow embedding of the `slog-async` fork (sigp/async, `src/lib.rs`):
an asynchronous drain that relays structured log records from producer
threads to a single worker thread over a bounded channel, with runtime
PID/level filtering, an overflow-aware facade with drop accounting, and
a shutdown protocol.

External dependency semantics that the code relies on are embedded from
the libraries the crate uses:
  * `slog::Level` and its (reversed) `PartialOrd` instance;
  * `crossbeam_channel`'s bounded channel `try_send`/`send` result
    behaviour (modelled as a functional queue with a `closed` flag;
    the blocking wait of `send` is collapsed to its eventual outcome).
Machine-level details irrelevant to the claims (thread scheduling,
atomics' memory orderings) are modelled sequentially: each operation of
the facade is a pure state transformer.
-/

namespace SlogAsync

/-- `slog::Level`. `as_usize` maps `Critical ↦ 1`, …, `Trace ↦ 6`
(lower numeric value = more severe). -/
inductive Level
  | Critical
  | Error
  | Warning
  | Info
  | Debug
  | Trace
deriving DecidableEq, Repr

/-- `slog::Level::as_usize`. -/
def Level.as_usize : Level → Nat
  | .Critical => 1
  | .Error => 2
  | .Warning => 3
  | .Info => 4
  | .Debug => 5
  | .Trace => 6

/-- Rust `a <= b` on `slog::Level`.  slog's `PartialOrd for Level` is
`other.as_usize().partial_cmp(&self.as_usize())`, i.e. the comparison is
REVERSED relative to `as_usize`: `a <= b ↔ b.as_usize ≤ a.as_usize`,
so a more severe level compares as the greater one. -/
def Level.slogLe (a b : Level) : Bool := b.as_usize ≤ a.as_usize

/-- `a` is strictly more severe than `b` (smaller `as_usize`). -/
def Level.moreSevere (a b : Level) : Bool := a.as_usize < b.as_usize

/-- `slog::RecordLocation` (file/line/column/function/module). -/
structure RecordLocation where
  file : String
  line : Nat
  column : Nat
  func : String
  modulePath : String
deriving DecidableEq, Repr

/-- `PID_KEY`: the key given to the logger to filter based on pid. -/
def PID_KEY : String := "pid"

/-- Model of Rust `str::parse::<usize>()` on a 64-bit target: an
optional leading `+`, then decimal digits, result below `2^64`.
(`String.toNat?` rejects the empty string and non-digits.) -/
def parseUsize (s : String) : Option Nat :=
  let t := if s.startsWith "+" then s.drop 1 else s
  match t.toNat? with
  | some n => if n < 2 ^ 64 then some n else none
  | none => none

/-- `PidSerializer`: serializes a KV list to find a PID value. -/
structure PidSerializer where
  pid : Option Nat
deriving DecidableEq, Repr

/-- `PidSerializer::emit_arguments`: if the key is `PID_KEY` and the
rendered value parses as a `usize`, record it (overwriting any earlier
find); otherwise leave the state unchanged. -/
def PidSerializer.emit_arguments (ser : PidSerializer) (key val : String) :
    PidSerializer :=
  if key = PID_KEY then
    match parseUsize val with
    | some id => { pid := some id }
    | none => ser
  else ser

/-- Serializing an `OwnedKVList` (modelled as an ordered list of
rendered key/value pairs) through a `PidSerializer`, as done in
`AsyncRecord::from`. -/
def findPid (logger_values : List (String × String)) : Option Nat :=
  (logger_values.foldl
    (fun (ser : PidSerializer) kv => ser.emit_arguments kv.1 kv.2)
    { pid := none }).pid

/-- The borrowed `slog::Record` together with everything
`AsyncRecord::from` reads from it: eagerly rendered message, level,
location, tag and the call-site key-value pairs (already rendered to
owned form, as `ToSendSerializer` does). -/
structure RecordInput where
  msg : String
  level : Level
  location : RecordLocation
  tag : String
  kv : List (String × String)
deriving DecidableEq, Repr

/-- `AsyncRecord`: the owned, thread-transferable snapshot. -/
structure AsyncRecord where
  msg : String
  level : Level
  location : RecordLocation
  tag : String
  logger_values : List (String × String)
  kv : List (String × String)
  pid : Option Nat
deriving DecidableEq, Repr

/-- `AsyncRecord::from(record, logger_values)`: copies the record's
fields and searches `logger_values` (only) for a PID with
`PidSerializer`. -/
def AsyncRecord.ofRecord (record : RecordInput)
    (logger_values : List (String × String)) : AsyncRecord :=
  { msg := record.msg
    level := record.level
    location := record.location
    tag := record.tag
    logger_values := logger_values
    kv := record.kv
    pid := findPid logger_values }

/-- `AsyncMsg`: the relay channel's message type. -/
inductive AsyncMsg
  | Record (r : AsyncRecord)
  | DisablePID (pid : Nat)
  | EnablePID (pid : Nat)
  | LogLevel (level : Level)
  | Finish
deriving DecidableEq, Repr

/-- The worker thread's private state in `spawn_thread`:
`enabled_pids` (a `HashSet<usize>`, modelled as a duplicate-free list)
and `emit_log_level` (initially `None`). -/
structure WorkerState where
  enabled_pids : List Nat
  emit_log_level : Option Level
deriving DecidableEq, Repr

/-- The state the spawned worker starts from: empty PID set, no level. -/
def workerInit : WorkerState :=
  { enabled_pids := [], emit_log_level := none }

/-- `HashSet::insert`. -/
def pidInsert (s : List Nat) (p : Nat) : List Nat :=
  if p ∈ s then s else p :: s

/-- `HashSet::remove`. -/
def pidRemove (s : List Nat) (p : Nat) : List Nat :=
  s.filter (fun q => q ≠ p)

/-- The level gate of the worker loop: with no level set nothing is
emitted; with level `L` set, a record of level `l` is emitted iff
`l <= L` in slog's ordering (`if r.level <= level { r.log_to(&drain) }`). -/
def levelEmit (emit_log_level : Option Level) (l : Level) : Bool :=
  match emit_log_level with
  | some level => l.slogLe level
  | none => false

/-- The PID gate of the worker loop: a record with `pid = Some p` is
let through iff `p` is in `enabled_pids`; a record without a PID
bypasses the check (`if let Some(pid) = r.pid { if !enabled_pids.contains(&pid) { continue; } }`). -/
def pidCheck (st : WorkerState) (r : AsyncRecord) : Bool :=
  match r.pid with
  | some pid => decide (pid ∈ st.enabled_pids)
  | none => true

/-- Whether the worker loop forwards a dequeued `Record` to the
downstream drain: the PID gate, then the level gate. -/
def recordDelivered (st : WorkerState) (r : AsyncRecord) : Bool :=
  pidCheck st r && levelEmit st.emit_log_level r.level

/-- One iteration of the worker loop body for a non-`Finish` message:
the updated state and the records forwarded to the drain ( `[r]` or
`[]` for `Record r`, state mutation for the control messages). -/
def workerStep (st : WorkerState) : AsyncMsg → WorkerState × List AsyncRecord
  | .Record r => (st, if recordDelivered st r then [r] else [])
  | .EnablePID pid =>
      ({ st with enabled_pids := pidInsert st.enabled_pids pid }, [])
  | .DisablePID pid =>
      ({ st with enabled_pids := pidRemove st.enabled_pids pid }, [])
  | .LogLevel level => ({ st with emit_log_level := some level }, [])
  | .Finish => (st, [])

/-- The worker loop over a finite message trace: returns the records
delivered to the drain, the final worker state, and the messages left
unread after the first `Finish` (`AsyncMsg::Finish => return`). An
exhausted trace models a still-blocked `recv`. -/
def runWorker (st : WorkerState) :
    List AsyncMsg → List AsyncRecord × WorkerState × List AsyncMsg
  | [] => ([], st, [])
  | AsyncMsg.Finish :: rest => ([], st, rest)
  | AsyncMsg.Record r :: rest =>
      let out := runWorker st rest
      ((if recordDelivered st r then [r] else []) ++ out.1, out.2)
  | AsyncMsg.EnablePID pid :: rest =>
      runWorker { st with enabled_pids := pidInsert st.enabled_pids pid } rest
  | AsyncMsg.DisablePID pid :: rest =>
      runWorker { st with enabled_pids := pidRemove st.enabled_pids pid } rest
  | AsyncMsg.LogLevel level :: rest =>
      runWorker { st with emit_log_level := some level } rest

/-- The worker state after processing a list of messages (none of which
is expected to be `Finish` when this is used). -/
def stateAfter (st : WorkerState) : List AsyncMsg → WorkerState
  | [] => st
  | m :: rest => stateAfter (workerStep st m).1 rest

/-- The records the worker forwards while processing a list of
messages. -/
def deliveredList (st : WorkerState) : List AsyncMsg → List AsyncRecord
  | [] => []
  | m :: rest => (workerStep st m).2 ++ deliveredList (workerStep st m).1 rest

/-- Accumulator step for the most recent level threshold. -/
def levelUpd (acc : Option Level) (m : AsyncMsg) : Option Level :=
  match m with
  | AsyncMsg.LogLevel l => some l
  | _ => acc

/-- The most recent level threshold in a message list, if any. -/
def lastLogLevel (msgs : List AsyncMsg) : Option Level :=
  msgs.foldl levelUpd none

/-- The PID contribution of one rendered logger-scoped entry: its value
parsed as a `usize` when its key is `PID_KEY`, `none` otherwise. -/
def pidOfEntry (kv : String × String) : Option Nat :=
  if kv.1 = PID_KEY then parseUsize kv.2 else none

/-- A `crossbeam_channel::bounded` channel as seen from a sender:
its capacity, current queue contents, and whether it is disconnected
(every receiver dropped, i.e. the worker thread has terminated). -/
structure Channel where
  cap : Nat
  queue : List AsyncMsg
  closed : Bool
deriving DecidableEq, Repr

/-- `crossbeam_channel::TrySendError` (payload dropped). -/
inductive TrySendError
  | full
  | disconnected
deriving DecidableEq, Repr

/-- `Sender::try_send` on a bounded channel: fails with `disconnected`
if all receivers are gone, with `full` if the queue is at capacity,
otherwise enqueues at the back. -/
def Channel.try_send (c : Channel) (m : AsyncMsg) :
    Except TrySendError Channel :=
  if c.closed then .error .disconnected
  else if c.cap ≤ c.queue.length then .error .full
  else .ok { c with queue := c.queue ++ [m] }

/-- `Sender::send` on a bounded channel, with the blocking wait
collapsed to its eventual outcome: fails (with
`crossbeam_channel::SendError`) iff the channel is disconnected,
otherwise the message is eventually enqueued. -/
def Channel.send (c : Channel) (m : AsyncMsg) : Except Unit Channel :=
  if c.closed then .error ()
  else .ok { c with queue := c.queue ++ [m] }

/-- `AsyncError`: errors reported by `Async` (the `Fatal` box reduced
to its message text). -/
inductive AsyncError
  | Full
  | Fatal (msg : String)
deriving DecidableEq, Repr

/-- `impl From<crossbeam_channel::TrySendError<T>> for AsyncError`:
EVERY try-send error — `Full` and `Disconnected` alike — is converted
to `AsyncError::Full` (the source ignores the variant). -/
def AsyncError.ofTrySendError (_e : TrySendError) : AsyncError :=
  AsyncError.Full

/-- `impl From<crossbeam_channel::SendError<T>> for AsyncError`:
a blocking-send failure becomes `AsyncError::Fatal` with a broken-pipe
error reading "The logger thread terminated". -/
def AsyncError.ofSendError : AsyncError :=
  AsyncError.Fatal "The logger thread terminated"

/-- The sender-relevant state of `AsyncCore`: its channel endpoint and
the `blocking` flag.  (`get_sender` — the thread-local cache — is
infallible: its closure only ever returns `Ok`, so it is elided.) -/
structure AsyncCore where
  chan : Channel
  blocking : Bool
deriving DecidableEq, Repr

/-- `AsyncCore::send`: blocking mode uses `Sender::send` (errors become
`Fatal`), non-blocking mode uses `Sender::try_send` (errors become
`Full` via the `From` conversion).  On success the updated channel is
returned. -/
def AsyncCore.send (core : AsyncCore) (r : AsyncRecord) :
    Except AsyncError AsyncCore :=
  if core.blocking then
    match core.chan.send (AsyncMsg.Record r) with
    | .ok c => .ok { core with chan := c }
    | .error _ => .error AsyncError.ofSendError
  else
    match core.chan.try_send (AsyncMsg.Record r) with
    | .ok c => .ok { core with chan := c }
    | .error e => .error (AsyncError.ofTrySendError e)

/-- `impl Drain for AsyncCore`: `log` snapshots the record with
`AsyncRecord::from` and sends it. -/
def AsyncCore.log (core : AsyncCore) (record : RecordInput)
    (logger_values : List (String × String)) : Except AsyncError AsyncCore :=
  core.send (AsyncRecord.ofRecord record logger_values)

/-- `OverflowStrategy` (the hidden variant panics and is omitted). -/
inductive OverflowStrategy
  | DropAndReport
  | Drop
  | Block
deriving DecidableEq, Repr

/-- `AsyncBuilder::overflow_strategy`: the `(blocking, inc_dropped)`
flag pair selected for each strategy. -/
def OverflowStrategy.flags : OverflowStrategy → Bool × Bool
  | .Block => (true, false)
  | .Drop => (false, false)
  | .DropAndReport => (false, true)

/-- The `Async` facade: the core, the `dropped` atomic counter and the
`inc_dropped` flag. -/
structure Async where
  core : AsyncCore
  dropped : Nat
  inc_dropped : Bool
deriving DecidableEq, Repr

/-- `AsyncBuilder::new(drain).overflow_strategy(s).chan_size(n).build()`:
fresh channel, counter at zero.  (`AsyncBuilder::new` defaults to
`blocking = false`, `inc_dropped = true`, i.e. `DropAndReport`.) -/
def buildAsync (strategy : OverflowStrategy) (chan_size : Nat) : Async :=
  { core :=
      { chan := { cap := chan_size, queue := [], closed := false }
        blocking := strategy.flags.1 }
    dropped := 0
    inc_dropped := strategy.flags.2 }

/-- The location baked into the `record!` invocation in
`Async::push_dropped`. -/
def dropRecordLocation : RecordLocation :=
  { file := "src/lib.rs", line := 825, column := 17
    func := "push_dropped", modulePath := "slog_async" }

/-- The meta-record `push_dropped` synthesizes: severity `Error`, tag
`"slog-async"`, the fixed overflow message, and a `"count"` key-value
pair holding the dropped count. -/
def dropRecordInput (dropped : Nat) : RecordInput :=
  { msg := "slog-async: logger dropped messages due to channel overflow"
    level := Level.Error
    tag := "slog-async"
    location := dropRecordLocation
    kv := [("count", toString dropped)] }

/-- `Async::push_dropped`: swap the counter to zero; if it was positive
try to send the meta-record through the core.  On `Ok` keep the counter
at zero; on `Full` add back `dropped + 1` and report success; any other
error is returned (state mutations persist, hence the state/result
pair). -/
def Async.push_dropped (a : Async) (logger_values : List (String × String)) :
    Async × Except AsyncError Unit :=
  let dropped := a.dropped
  let a1 : Async := { a with dropped := 0 }
  if 0 < dropped then
    match AsyncCore.log a1.core (dropRecordInput dropped) logger_values with
    | .ok core1 => ({ a1 with core := core1 }, .ok ())
    | .error AsyncError.Full =>
        ({ a1 with dropped := a1.dropped + (dropped + 1) }, .ok ())
    | .error e => (a1, .error e)
  else (a1, .ok ())

/-- `impl Drain for Async`: flush any pending drop count (propagating
its non-`Full` errors), then send the record through the core; a `Full`
from the core is absorbed, incrementing the counter iff `inc_dropped`. -/
def Async.log (a : Async) (record : RecordInput)
    (logger_values : List (String × String)) :
    Async × Except AsyncError Unit :=
  match a.push_dropped logger_values with
  | (a1, .error e) => (a1, .error e)
  | (a1, .ok _) =>
    match AsyncCore.log a1.core record logger_values with
    | .ok core1 => ({ a1 with core := core1 }, .ok ())
    | .error AsyncError.Full =>
        if a1.inc_dropped then ({ a1 with dropped := a1.dropped + 1 }, .ok ())
        else (a1, .ok ())
    | .error e => (a1, .error e)

/-- The events that can change an `Async`'s observable state: a
producer `log` or `push_dropped` call, the worker dequeuing one
message, or the worker thread terminating (disconnecting the channel). -/
inductive AsyncOp
  | log (record : RecordInput) (logger_values : List (String × String))
  | pushDropped (logger_values : List (String × String))
  | workerRecv
  | workerExit
deriving DecidableEq, Repr

/-- Apply one event to the facade state. -/
def applyOp (a : Async) : AsyncOp → Async
  | .log record lv => (a.log record lv).1
  | .pushDropped lv => (a.push_dropped lv).1
  | .workerRecv =>
      { a with core :=
          { a.core with chan :=
              { a.core.chan with queue := a.core.chan.queue.drop 1 } } }
  | .workerExit =>
      { a with core :=
          { a.core with chan := { a.core.chan with closed := true } } }

/-- The facade state reached from a build configuration after a list of
events. -/
def runOps (a : Async) (ops : List AsyncOp) : Async := ops.foldl applyOp a

/-- OS thread identifiers (`std::thread::ThreadId`). -/
abbrev ThreadId := Nat

/-- What a teardown routine did: whether it sent `AsyncMsg::Finish`,
and whether it joined the worker thread. -/
structure DropOutcome where
  sent_finish : Bool
  joined : Bool
deriving DecidableEq, Repr

/-- `impl Drop for AsyncCore`, as a function of the join-handle slot
(`None` when a guard owns the join) and of the worker's and current
thread's ids: when a handle is present, send `Finish` and join — unless
the current thread IS the worker thread, in which case the join is
skipped. -/
def asyncCoreDrop (join : Option ThreadId) (current : ThreadId) :
    DropOutcome :=
  match join with
  | some worker =>
      { sent_finish := true, joined := decide (worker ≠ current) }
  | none => { sent_finish := false, joined := false }

/-- `impl Drop for AsyncGuard`: always send `Finish`, then join unless
the current thread is the worker thread. -/
def asyncGuardDrop (worker current : ThreadId) : DropOutcome :=
  { sent_finish := true, joined := decide (worker ≠ current) }

/-- An example call-site location, used for concrete instances. -/
def exLocation : RecordLocation :=
  { file := "app.rs", line := 10, column := 1
    func := "main", modulePath := "app" }

/-- An example borrowed record of the given level, no key-value pairs. -/
def exInput (l : Level) : RecordInput :=
  { msg := "message", level := l, location := exLocation, tag := "", kv := [] }

/-- An example snapshot of the given level with no PID. -/
def exRecord (l : Level) : AsyncRecord := AsyncRecord.ofRecord (exInput l) []

/-- An example snapshot of the given level tagged with PID `p`. -/
def exRecordPid (l : Level) (p : Nat) : AsyncRecord :=
  { exRecord l with pid := some p }

/-- A non-blocking core whose channel is disconnected (worker thread
terminated) and whose queue is empty — far from saturated. -/
def closedIdleCore : AsyncCore :=
  { chan := { cap := 8, queue := [], closed := true }, blocking := false }

/-! ## Worker-loop lemmas -/

theorem stateAfter_append (st : WorkerState) (l1 l2 : List AsyncMsg) :
    stateAfter st (l1 ++ l2) = stateAfter (stateAfter st l1) l2 := by
  induction l1 generalizing st with
  | nil => rfl
  | cons m rest ih => simp [stateAfter, ih]

theorem deliveredList_append (st : WorkerState) (l1 l2 : List AsyncMsg) :
    deliveredList st (l1 ++ l2) =
      deliveredList st l1 ++ deliveredList (stateAfter st l1) l2 := by
  induction l1 generalizing st with
  | nil => rfl
  | cons m rest ih => simp [deliveredList, stateAfter, ih]

theorem emit_log_level_stateAfter (msgs : List AsyncMsg) (st : WorkerState) :
    (stateAfter st msgs).emit_log_level =
      msgs.foldl levelUpd st.emit_log_level := by
  induction msgs generalizing st with
  | nil => rfl
  | cons m rest ih => cases m <;> simp [stateAfter, workerStep, levelUpd, ih]

theorem emit_log_level_of_no_loglevel (msgs : List AsyncMsg)
    (st : WorkerState) (h : ∀ l, AsyncMsg.LogLevel l ∉ msgs) :
    (stateAfter st msgs).emit_log_level = st.emit_log_level := by
  induction msgs generalizing st with
  | nil => rfl
  | cons m rest ih =>
    have hm : ∀ l, AsyncMsg.LogLevel l ∉ rest := by
      intro l hl
      exact h l (List.mem_cons_of_mem m hl)
    cases m with
    | LogLevel l => exact absurd (List.mem_cons_self _ _) (h l)
    | _ => simpa [stateAfter, workerStep] using ih _ hm

theorem emit_log_level_workerInit (msgs : List AsyncMsg) :
    (stateAfter workerInit msgs).emit_log_level = lastLogLevel msgs :=
  emit_log_level_stateAfter msgs workerInit

theorem mem_enabled_pids_stateAfter (msgs : List AsyncMsg)
    (st : WorkerState) (p : Nat)
    (h : p ∈ (stateAfter st msgs).enabled_pids) :
    (∃ l1 l2, msgs = l1 ++ AsyncMsg.EnablePID p :: l2 ∧
      AsyncMsg.DisablePID p ∉ l2) ∨
    (p ∈ st.enabled_pids ∧ AsyncMsg.DisablePID p ∉ msgs) := by
  induction msgs generalizing st with
  | nil =>
    right
    simpa [stateAfter] using h
  | cons m rest ih =>
    rw [show stateAfter st (m :: rest) = stateAfter (workerStep st m).1 rest
      from rfl] at h
    rcases ih (workerStep st m).1 h with ⟨l1, l2, heq, hnd⟩ | ⟨hmem, hnd⟩
    · exact Or.inl ⟨m :: l1, l2, by simp [heq], hnd⟩
    · cases m with
      | Record r =>
        exact Or.inr ⟨hmem, by simp [hnd]⟩
      | EnablePID q =>
        by_cases hq : q = p
        · subst hq
          exact Or.inl ⟨[], rest, rfl, hnd⟩
        · refine Or.inr ⟨?_, by simp [hnd]⟩
          have hmem' : p ∈ pidInsert st.enabled_pids q := hmem
          by_cases hin : q ∈ st.enabled_pids
          · simpa [pidInsert, hin] using hmem'
          · have hor : p = q ∨ p ∈ st.enabled_pids := by
              simpa [pidInsert, hin] using hmem'
            rcases hor with h1 | h2
            · exact absurd h1.symm hq
            · exact h2
      | DisablePID q =>
        by_cases hq : q = p
        · have habs : p ∈ pidRemove st.enabled_pids q := hmem
          rw [hq] at habs
          simp [pidRemove] at habs
        · refine Or.inr ⟨?_, ?_⟩
          · have hmem' : p ∈ pidRemove st.enabled_pids q := hmem
            simp only [pidRemove, List.mem_filter] at hmem'
            exact hmem'.1
          · intro hc
            rcases List.mem_cons.mp hc with h1 | h2
            · injection h1 with hpq
              exact hq hpq.symm
            · exact hnd h2
      | LogLevel l =>
        exact Or.inr ⟨hmem, by simp [hnd]⟩
      | Finish =>
        exact Or.inr ⟨hmem, by simp [hnd]⟩

/-! ## Claims about the worker loop -/

/-- C7.  If the worker's message trace is `pre ++ Terminate :: post`
with no `Terminate` in `pre`, then every message of `pre` is processed
(the delivered records and final state are exactly those of folding the
loop body over `pre`), the loop returns at the first `Terminate`, and
the messages in `post` are never read. -/
theorem worker_processes_all_before_terminate (st : WorkerState)
    (pre post : List AsyncMsg) (h : AsyncMsg.Finish ∉ pre) :
    runWorker st (pre ++ AsyncMsg.Finish :: post) =
      (deliveredList st pre, stateAfter st pre, post) := by
  induction pre generalizing st with
  | nil => rfl
  | cons m rest ih =>
    have hm : m ≠ AsyncMsg.Finish := fun hEq => h (hEq ▸ List.mem_cons_self m rest)
    have hr : AsyncMsg.Finish ∉ rest := fun hIn => h (List.mem_cons_of_mem m hIn)
    cases m with
    | Finish => exact absurd rfl hm
    | Record r =>
      simp [runWorker, deliveredList, stateAfter, workerStep, ih _ hr]
    | EnablePID q =>
      simp [runWorker, deliveredList, stateAfter, workerStep, ih _ hr]
    | DisablePID q =>
      simp [runWorker, deliveredList, stateAfter, workerStep, ih _ hr]
    | LogLevel l =>
      simp [runWorker, deliveredList, stateAfter, workerStep, ih _ hr]

/-- C7 witness at a concrete trace. -/
theorem worker_processes_all_before_terminate_witness :
    runWorker workerInit
      ([AsyncMsg.LogLevel Level.Info, AsyncMsg.Record (exRecord Level.Info)]
        ++ AsyncMsg.Finish :: [AsyncMsg.Record (exRecord Level.Error)]) =
      (deliveredList workerInit
        [AsyncMsg.LogLevel Level.Info, AsyncMsg.Record (exRecord Level.Info)],
       stateAfter workerInit
        [AsyncMsg.LogLevel Level.Info, AsyncMsg.Record (exRecord Level.Info)],
       [AsyncMsg.Record (exRecord Level.Error)]) :=
  worker_processes_all_before_terminate workerInit _ _ (by decide)

/-- C6.  If no `SetLevel` message precedes a record, the record is not
delivered — it contributes nothing to the worker's output — whatever
its PID or severity. -/
theorem no_emission_before_first_setlevel (pre post : List AsyncMsg)
    (r : AsyncRecord) (hL : ∀ l, AsyncMsg.LogLevel l ∉ pre) :
    recordDelivered (stateAfter workerInit pre) r = false ∧
    deliveredList workerInit (pre ++ AsyncMsg.Record r :: post) =
      deliveredList workerInit (pre ++ post) := by
  have hlev : (stateAfter workerInit pre).emit_log_level = none :=
    emit_log_level_of_no_loglevel pre workerInit hL
  have hdel : recordDelivered (stateAfter workerInit pre) r = false := by
    simp [recordDelivered, levelEmit, hlev]
  refine ⟨hdel, ?_⟩
  rw [deliveredList_append, deliveredList_append]
  simp [deliveredList, workerStep, stateAfter, hdel]

/-- C6 witness at a concrete trace. -/
theorem no_emission_before_first_setlevel_witness :
    recordDelivered (stateAfter workerInit [AsyncMsg.EnablePID 1])
      (exRecord Level.Critical) = false ∧
    deliveredList workerInit
      ([AsyncMsg.EnablePID 1] ++
        AsyncMsg.Record (exRecord Level.Critical) :: []) =
      deliveredList workerInit ([AsyncMsg.EnablePID 1] ++ []) :=
  no_emission_before_first_setlevel [AsyncMsg.EnablePID 1] [] _
    (by intro l hl; simp at hl)

/-- C5.  A record carrying PID `p` is forwarded only if some
`EnablePID p` was processed before it with no later `DisablePID p`
in between; a record with no PID bypasses the PID check and is gated
by the level check alone. -/
theorem pid_filter_necessary :
    (∀ (pre : List AsyncMsg) (r : AsyncRecord) (p : Nat),
        r.pid = some p →
        recordDelivered (stateAfter workerInit pre) r = true →
        ∃ l1 l2, pre = l1 ++ AsyncMsg.EnablePID p :: l2 ∧
          AsyncMsg.DisablePID p ∉ l2) ∧
    (∀ (st : WorkerState) (r : AsyncRecord), r.pid = none →
        recordDelivered st r = levelEmit st.emit_log_level r.level) := by
  constructor
  · intro pre r p hp hdel
    have hmem : p ∈ (stateAfter workerInit pre).enabled_pids := by
      have := (Bool.and_eq_true _ _).mp hdel |>.1
      simpa [pidCheck, hp] using this
    rcases mem_enabled_pids_stateAfter pre workerInit p hmem with
      hfound | ⟨habs, _⟩
    · exact hfound
    · simp [workerInit] at habs
  · intro st r hp
    simp [recordDelivered, pidCheck, hp]

/-- C5 witness at a concrete trace and record. -/
theorem pid_filter_necessary_witness :
    (∃ l1 l2,
      [AsyncMsg.EnablePID 3, AsyncMsg.LogLevel Level.Info] =
        l1 ++ AsyncMsg.EnablePID 3 :: l2 ∧ AsyncMsg.DisablePID 3 ∉ l2) ∧
    recordDelivered workerInit (exRecord Level.Info) =
      levelEmit workerInit.emit_log_level Level.Info :=
  ⟨pid_filter_necessary.1 [AsyncMsg.EnablePID 3, AsyncMsg.LogLevel Level.Info]
      (exRecordPid Level.Info 3) 3 rfl (by decide),
   pid_filter_necessary.2 workerInit (exRecord Level.Info) (by decide)⟩

/-- C1 counterexample.  With threshold `Info` set (and the PID check
passing), a `Critical` record — strictly more severe than the
threshold — is NOT delivered, and a record exactly at the threshold IS
delivered: the opposite of the claim on both sides of the boundary. -/
theorem level_filter_claim_false :
    Level.moreSevere Level.Critical Level.Info = true ∧
    pidCheck (stateAfter workerInit [AsyncMsg.LogLevel Level.Info])
      (exRecord Level.Critical) = true ∧
    recordDelivered (stateAfter workerInit [AsyncMsg.LogLevel Level.Info])
      (exRecord Level.Critical) = false ∧
    (exRecord Level.Info).level = Level.Info ∧
    pidCheck (stateAfter workerInit [AsyncMsg.LogLevel Level.Info])
      (exRecord Level.Info) = true ∧
    recordDelivered (stateAfter workerInit [AsyncMsg.LogLevel Level.Info])
      (exRecord Level.Info) = true := by
  decide

/-- C1 (amended).  With the most recent threshold `L` set and the PID
check passing, a record is delivered iff `record.level <= L` in slog's
reversed level order, i.e. iff the record is at `L` or LESS severe
(`L.as_usize ≤ record.level.as_usize`); a record strictly more severe
than `L` is discarded, and at the equality boundary the record is
delivered. -/
theorem level_filter_actual (pre : List AsyncMsg) (r : AsyncRecord)
    (L : Level) (hL : lastLogLevel pre = some L)
    (hpid : pidCheck (stateAfter workerInit pre) r = true) :
    recordDelivered (stateAfter workerInit pre) r =
      decide (L.as_usize ≤ r.level.as_usize) := by
  have hlev : (stateAfter workerInit pre).emit_log_level = some L := by
    rw [emit_log_level_workerInit, hL]
  simp [recordDelivered, hpid, levelEmit, hlev, Level.slogLe]

/-- C1 (amended) witness: threshold `Info`, record at `Debug` (less
severe), delivered. -/
theorem level_filter_actual_witness :
    recordDelivered (stateAfter workerInit [AsyncMsg.LogLevel Level.Info])
      (exRecord Level.Debug) =
      decide (Level.Info.as_usize ≤ (exRecord Level.Debug).level.as_usize) :=
  level_filter_actual [AsyncMsg.LogLevel Level.Info] (exRecord Level.Debug)
    Level.Info (by decide) (by decide)

/-! ## Channel and core-send lemmas -/

theorem send_ok_spec (core : AsyncCore) (r : AsyncRecord) (core1 : AsyncCore)
    (h : core.send r = Except.ok core1) :
    core1.blocking = core.blocking ∧ core1.chan.cap = core.chan.cap ∧
    core1.chan.closed = core.chan.closed ∧
    core1.chan.queue = core.chan.queue ++ [AsyncMsg.Record r] := by
  unfold AsyncCore.send Channel.send Channel.try_send at h
  cases hb : core.blocking <;> cases hc : core.chan.closed <;>
    simp only [hb, hc] at h <;> simp at h
  · by_cases hf : core.chan.cap ≤ core.chan.queue.length
    · simp [hf] at h
    · simp [hf] at h
      subst h
      simp [hb, hc]
  · subst h
    simp [hb, hc]

theorem send_nonblocking_total (core : AsyncCore) (r : AsyncRecord)
    (hb : core.blocking = false) :
    (core.send r = Except.error AsyncError.Full ∧
      (core.chan.closed = true ∨ core.chan.cap ≤ core.chan.queue.length)) ∨
    core.send r = Except.ok { core with chan :=
      { core.chan with queue := core.chan.queue ++ [AsyncMsg.Record r] } } := by
  by_cases hc : core.chan.closed = true
  · left
    refine ⟨?_, Or.inl hc⟩
    simp [AsyncCore.send, Channel.try_send, hb, hc, AsyncError.ofTrySendError]
  · by_cases hf : core.chan.cap ≤ core.chan.queue.length
    · left
      refine ⟨?_, Or.inr hf⟩
      simp [AsyncCore.send, Channel.try_send, hb, hc, hf,
        AsyncError.ofTrySendError]
    · right
      simp [AsyncCore.send, Channel.try_send, hb, hc, hf]

theorem send_nonblocking_not_fatal (core : AsyncCore) (r : AsyncRecord)
    (e : AsyncError) (hb : core.blocking = false)
    (h : core.send r = Except.error e) : e = AsyncError.Full := by
  rcases send_nonblocking_total core r hb with ⟨hfull, _⟩ | hok
  · rw [h] at hfull
    exact Except.error.inj hfull
  · rw [h] at hok
    simp at hok

/-- C2 counterexample.  A non-blocking core whose channel is
disconnected (worker thread terminated) and whose queue is empty gets
`Full` — not `Fatal` — from `send`: `Full` without saturation, and no
`Fatal` despite the closed channel. -/
theorem send_error_claim_false :
    closedIdleCore.blocking = false ∧
    closedIdleCore.chan.closed = true ∧
    closedIdleCore.chan.queue.length < closedIdleCore.chan.cap ∧
    closedIdleCore.send (exRecord Level.Info) =
      Except.error AsyncError.Full :=
  ⟨rfl, rfl, by decide, rfl⟩

/-- C2 (amended).  `AsyncCore::send` returns `Full` iff the core is
non-blocking and `try_send` fails — queue saturated OR channel
disconnected, since the `TrySendError` conversion collapses both to
`Full`; it returns `Fatal` iff the core is blocking and the channel is
disconnected. -/
theorem send_error_conditions (core : AsyncCore) (r : AsyncRecord) :
    (core.send r = Except.error AsyncError.Full ↔
      core.blocking = false ∧
        (core.chan.closed = true ∨
          core.chan.cap ≤ core.chan.queue.length)) ∧
    ((∃ s, core.send r = Except.error (AsyncError.Fatal s)) ↔
      core.blocking = true ∧ core.chan.closed = true) := by
  cases hb : core.blocking <;> cases hc : core.chan.closed
  · by_cases hf : core.chan.cap ≤ core.chan.queue.length
    · have hsend : core.send r = Except.error AsyncError.Full := by
        simp [AsyncCore.send, Channel.try_send, hb, hc, hf,
          AsyncError.ofTrySendError]
      rw [hsend]
      constructor
      · simp [hb, hc, hf]
      · simp [hb]
    · have hsend : core.send r = Except.ok { core with chan :=
          { core.chan with queue := core.chan.queue ++ [AsyncMsg.Record r] } } := by
        simp [AsyncCore.send, Channel.try_send, hb, hc, hf]
      rw [hsend]
      constructor
      · simp [hc, hf]
      · simp [hb]
  · have hsend : core.send r = Except.error AsyncError.Full := by
      simp [AsyncCore.send, Channel.try_send, hb, hc, AsyncError.ofTrySendError]
    rw [hsend]
    constructor
    · simp [hb, hc]
    · simp [hb]
  · have hsend : core.send r = Except.ok { core with chan :=
        { core.chan with queue := core.chan.queue ++ [AsyncMsg.Record r] } } := by
      simp [AsyncCore.send, Channel.send, hb, hc]
    rw [hsend]
    constructor
    · simp [hb]
    · simp [hc]
  · have hsend : core.send r = Except.error AsyncError.ofSendError := by
      simp [AsyncCore.send, Channel.send, hb, hc]
    rw [hsend]
    constructor
    · simp [AsyncError.ofSendError, hb]
    · simp [AsyncError.ofSendError, hb, hc]

/-! ## Teardown -/

/-- C8.  Whenever the teardown path owns the worker's join handle —
`AsyncCore`'s drop with the handle still present, or `AsyncGuard`'s
drop — it sends `Finish` and joins the worker thread, except that the
join is skipped when the thread running the teardown IS the worker
thread. -/
theorem teardown_join_skip (worker current : ThreadId) :
    (asyncCoreDrop (some worker) current).sent_finish = true ∧
    (asyncGuardDrop worker current).sent_finish = true ∧
    (worker = current →
      (asyncCoreDrop (some worker) current).joined = false ∧
      (asyncGuardDrop worker current).joined = false) ∧
    (worker ≠ current →
      (asyncCoreDrop (some worker) current).joined = true ∧
      (asyncGuardDrop worker current).joined = true) := by
  refine ⟨rfl, rfl, ?_, ?_⟩
  · intro h
    simp [asyncCoreDrop, asyncGuardDrop, h]
  · intro h
    simp [asyncCoreDrop, asyncGuardDrop, h]

/-- C8 witness: self-teardown from the worker thread skips the join;
teardown from another thread joins. -/
theorem teardown_join_skip_witness :
    ((asyncCoreDrop (some 0) 0).joined = false ∧
      (asyncGuardDrop 0 0).joined = false) ∧
    ((asyncCoreDrop (some 0) 1).joined = true ∧
      (asyncGuardDrop 0 1).joined = true) :=
  ⟨(teardown_join_skip 0 0).2.2.1 rfl,
   (teardown_join_skip 0 1).2.2.2 (by decide)⟩

/-! ## Facade lemmas: push_dropped and log -/

theorem push_dropped_zero (a : Async) (lv : List (String × String))
    (h : a.dropped = 0) :
    a.push_dropped lv = ({ a with dropped := 0 }, Except.ok ()) := by
  simp [Async.push_dropped, h]

theorem push_dropped_ok (a : Async) (lv : List (String × String))
    (core1 : AsyncCore) (h : 0 < a.dropped)
    (hc : AsyncCore.log a.core (dropRecordInput a.dropped) lv =
      Except.ok core1) :
    a.push_dropped lv =
      ({ a with dropped := 0, core := core1 }, Except.ok ()) := by
  simp [Async.push_dropped, h, hc]

theorem push_dropped_full (a : Async) (lv : List (String × String))
    (h : 0 < a.dropped)
    (hc : AsyncCore.log a.core (dropRecordInput a.dropped) lv =
      Except.error AsyncError.Full) :
    a.push_dropped lv =
      ({ a with dropped := a.dropped + 1 }, Except.ok ()) := by
  simp [Async.push_dropped, h, hc]

theorem push_dropped_fatal (a : Async) (lv : List (String × String))
    (s : String) (h : 0 < a.dropped)
    (hc : AsyncCore.log a.core (dropRecordInput a.dropped) lv =
      Except.error (AsyncError.Fatal s)) :
    a.push_dropped lv =
      ({ a with dropped := 0 }, Except.error (AsyncError.Fatal s)) := by
  simp [Async.push_dropped, h, hc]

theorem push_dropped_flags (a : Async) (lv : List (String × String)) :
    (a.push_dropped lv).1.inc_dropped = a.inc_dropped ∧
    (a.push_dropped lv).1.core.blocking = a.core.blocking := by
  rcases Nat.eq_zero_or_pos a.dropped with h0 | hpos
  · simp [push_dropped_zero a lv h0]
  · cases hc : AsyncCore.log a.core (dropRecordInput a.dropped) lv with
    | ok core1 =>
      have hc' : a.core.send
          (AsyncRecord.ofRecord (dropRecordInput a.dropped) lv) =
            Except.ok core1 := hc
      have hb := (send_ok_spec _ _ _ hc').1
      simp [push_dropped_ok a lv core1 hpos hc, hb]
    | error e =>
      cases e with
      | Full => simp [push_dropped_full a lv hpos hc]
      | Fatal s => simp [push_dropped_fatal a lv s hpos hc]

theorem push_dropped_not_full (a : Async) (lv : List (String × String)) :
    (a.push_dropped lv).2 ≠ Except.error AsyncError.Full := by
  rcases Nat.eq_zero_or_pos a.dropped with h0 | hpos
  · simp [push_dropped_zero a lv h0]
  · cases hc : AsyncCore.log a.core (dropRecordInput a.dropped) lv with
    | ok core1 => simp [push_dropped_ok a lv core1 hpos hc]
    | error e =>
      cases e with
      | Full => simp [push_dropped_full a lv hpos hc]
      | Fatal s => simp [push_dropped_fatal a lv s hpos hc]

theorem push_dropped_nonblocking_ok (a : Async) (lv : List (String × String))
    (hb : a.core.blocking = false) :
    (a.push_dropped lv).2 = Except.ok () := by
  rcases Nat.eq_zero_or_pos a.dropped with h0 | hpos
  · simp [push_dropped_zero a lv h0]
  · rcases send_nonblocking_total a.core
        (AsyncRecord.ofRecord (dropRecordInput a.dropped) lv) hb with
      ⟨hfull, _⟩ | hok
    · have hfull' : AsyncCore.log a.core (dropRecordInput a.dropped) lv =
          Except.error AsyncError.Full := hfull
      simp [push_dropped_full a lv hpos hfull']
    · have hok' : AsyncCore.log a.core (dropRecordInput a.dropped) lv =
          Except.ok _ := hok
      simp [push_dropped_ok a lv _ hpos hok']

theorem log_flags (a : Async) (record : RecordInput)
    (lv : List (String × String)) :
    (a.log record lv).1.inc_dropped = a.inc_dropped ∧
    (a.log record lv).1.core.blocking = a.core.blocking := by
  rcases hpd : a.push_dropped lv with ⟨a1, res⟩
  have hfl := push_dropped_flags a lv
  rw [hpd] at hfl
  simp only [Prod.fst] at hfl
  cases res with
  | error e => simpa [Async.log, hpd] using hfl
  | ok u =>
    cases hc : AsyncCore.log a1.core record lv with
    | ok core1 =>
      have hc' : a1.core.send (AsyncRecord.ofRecord record lv) =
          Except.ok core1 := hc
      have hb := (send_ok_spec _ _ _ hc').1
      simp [Async.log, hpd, hc, hb, hfl.1, hfl.2]
    | error e =>
      cases e with
      | Full =>
        rcases hfl with ⟨hfl1, hfl2⟩
        cases hinc : a1.inc_dropped with
        | false =>
          simp [Async.log, hpd, hc, hinc, hfl2]
          rw [← hfl1]
          exact hinc
        | true =>
          simp [Async.log, hpd, hc, hinc, hfl2]
          rw [← hfl1]
          exact hinc
      | Fatal s => simp [Async.log, hpd, hc, hfl.1, hfl.2]

theorem log_dropped_zero (a : Async) (record : RecordInput)
    (lv : List (String × String)) (hinc : a.inc_dropped = false)
    (hd : a.dropped = 0) :
    (a.log record lv).1.dropped = 0 := by
  have hpd := push_dropped_zero a lv hd
  cases hc : AsyncCore.log a.core record lv with
  | ok core1 => simp [Async.log, hpd, hc]
  | error e =>
    cases e with
    | Full => simp [Async.log, hpd, hc, hinc]
    | Fatal s => simp [Async.log, hpd, hc]

theorem applyOp_flags (a : Async) (op : AsyncOp) :
    (applyOp a op).inc_dropped = a.inc_dropped ∧
    (applyOp a op).core.blocking = a.core.blocking := by
  cases op with
  | log record lv => exact log_flags a record lv
  | pushDropped lv => exact push_dropped_flags a lv
  | workerRecv => exact ⟨rfl, rfl⟩
  | workerExit => exact ⟨rfl, rfl⟩

theorem applyOp_dropped_zero (a : Async) (op : AsyncOp)
    (hinc : a.inc_dropped = false) (hd : a.dropped = 0) :
    (applyOp a op).dropped = 0 := by
  cases op with
  | log record lv => exact log_dropped_zero a record lv hinc hd
  | pushDropped lv => simp [applyOp, push_dropped_zero a lv hd]
  | workerRecv => exact hd
  | workerExit => exact hd

theorem runOps_flags (ops : List AsyncOp) (a : Async) :
    (runOps a ops).inc_dropped = a.inc_dropped ∧
    (runOps a ops).core.blocking = a.core.blocking := by
  induction ops generalizing a with
  | nil => exact ⟨rfl, rfl⟩
  | cons op rest ih =>
    have h1 := applyOp_flags a op
    have h2 := ih (applyOp a op)
    exact ⟨h2.1.trans h1.1, h2.2.trans h1.2⟩

theorem runOps_dropped_zero (ops : List AsyncOp) (a : Async)
    (hinc : a.inc_dropped = false) (hd : a.dropped = 0) :
    (runOps a ops).dropped = 0 := by
  induction ops generalizing a with
  | nil => exact hd
  | cons op rest ih =>
    exact ih (applyOp a op)
      (by rw [(applyOp_flags a op).1]; exact hinc)
      (applyOp_dropped_zero a op hinc hd)

/-! ## Claims about the facade -/

/-- C3.  In every state the facade can reach from a build
configuration, a drop-count flush with a positive counter `K` reports
success, and either the meta-record hand-off succeeded and the counter
is reset to zero, or the hand-off failed (necessarily with `Full`) and
the counter is restored to `K + 1 ≥ K`: the count is never lost. -/
theorem drop_count_never_lost (strategy : OverflowStrategy)
    (chan_size : Nat) (ops : List AsyncOp) (lv : List (String × String))
    (hpos : 0 < (runOps (buildAsync strategy chan_size) ops).dropped) :
    ∃ a1 : Async,
      (runOps (buildAsync strategy chan_size) ops).push_dropped lv =
        (a1, Except.ok ()) ∧
      ((a1.dropped = 0 ∧
        a1.core.chan.queue =
          (runOps (buildAsync strategy chan_size) ops).core.chan.queue ++
            [AsyncMsg.Record (AsyncRecord.ofRecord
              (dropRecordInput
                (runOps (buildAsync strategy chan_size) ops).dropped) lv)]) ∨
       (a1.dropped = (runOps (buildAsync strategy chan_size) ops).dropped + 1 ∧
        a1.core = (runOps (buildAsync strategy chan_size) ops).core)) := by
  set a := runOps (buildAsync strategy chan_size) ops with ha
  have hb : a.core.blocking = false := by
    cases strategy with
    | DropAndReport =>
      rw [ha, (runOps_flags ops _).2]
      rfl
    | Drop =>
      exfalso
      have hz : a.dropped = 0 := by
        rw [ha]
        exact runOps_dropped_zero ops _ rfl rfl
      omega
    | Block =>
      exfalso
      have hz : a.dropped = 0 := by
        rw [ha]
        exact runOps_dropped_zero ops _ rfl rfl
      omega
  rcases send_nonblocking_total a.core
      (AsyncRecord.ofRecord (dropRecordInput a.dropped) lv) hb with
    ⟨hfull, _⟩ | hok
  · have hfull' : AsyncCore.log a.core (dropRecordInput a.dropped) lv =
        Except.error AsyncError.Full := hfull
    exact ⟨{ a with dropped := a.dropped + 1 },
      push_dropped_full a lv hpos hfull', Or.inr ⟨rfl, rfl⟩⟩
  · have hok' : AsyncCore.log a.core (dropRecordInput a.dropped) lv =
        Except.ok { a.core with chan := { a.core.chan with
          queue := a.core.chan.queue ++ [AsyncMsg.Record
            (AsyncRecord.ofRecord (dropRecordInput a.dropped) lv)] } } := hok
    exact ⟨_, push_dropped_ok a lv _ hpos hok', Or.inl ⟨rfl, rfl⟩⟩

/-- Two logs through a capacity-1 non-blocking facade: the second one
overflows and is counted. -/
def overflowOps : List AsyncOp :=
  [AsyncOp.log (exInput Level.Info) [], AsyncOp.log (exInput Level.Info) []]

/-- C3 witness at a concrete reachable state with a positive counter. -/
theorem drop_count_never_lost_witness :
    ∃ a1 : Async,
      (runOps (buildAsync OverflowStrategy.DropAndReport 1)
        overflowOps).push_dropped [] = (a1, Except.ok ()) ∧
      ((a1.dropped = 0 ∧
        a1.core.chan.queue =
          (runOps (buildAsync OverflowStrategy.DropAndReport 1)
            overflowOps).core.chan.queue ++
            [AsyncMsg.Record (AsyncRecord.ofRecord
              (dropRecordInput
                (runOps (buildAsync OverflowStrategy.DropAndReport 1)
                  overflowOps).dropped) [])]) ∨
       (a1.dropped = (runOps (buildAsync OverflowStrategy.DropAndReport 1)
          overflowOps).dropped + 1 ∧
        a1.core = (runOps (buildAsync OverflowStrategy.DropAndReport 1)
          overflowOps).core)) :=
  drop_count_never_lost OverflowStrategy.DropAndReport 1 overflowOps []
    (by decide)

/-- C4.  When the counter holds `K > 0` and the meta-record enqueue
comes back `Full`, the flush sets the counter to exactly `K + 1` (the
original count plus one for the lost meta-record) and reports success. -/
theorem drop_flush_full_restores_exact (a : Async)
    (lv : List (String × String)) (hK : 0 < a.dropped)
    (hfull : AsyncCore.log a.core (dropRecordInput a.dropped) lv =
      Except.error AsyncError.Full) :
    a.push_dropped lv = ({ a with dropped := a.dropped + 1 }, Except.ok ()) :=
  push_dropped_full a lv hK hfull

/-- A non-blocking facade whose zero-capacity channel rejects every
try-send, with three drops recorded. -/
def fullNonblockingAsync : Async :=
  { core :=
      { chan := { cap := 0, queue := [], closed := false }
        blocking := false }
    dropped := 3
    inc_dropped := true }

/-- C4 witness: with `K = 3` and a saturated channel the flush returns
success and the counter becomes exactly `4`. -/
theorem drop_flush_full_restores_exact_witness :
    fullNonblockingAsync.push_dropped [] =
      ({ fullNonblockingAsync with dropped := 4 }, Except.ok ()) :=
  drop_flush_full_restores_exact fullNonblockingAsync [] (by decide) rfl

/-- C10.  `Async`'s `log` never returns `Full`: its result is success
or a `Fatal`; in non-blocking mode (the only mode whose core can
report `Full`) it always succeeds; and a core-level `Full` is absorbed
by incrementing the drop counter iff `inc_dropped` is set. -/
theorem facade_log_never_full (a : Async) (record : RecordInput)
    (lv : List (String × String)) :
    ((a.log record lv).2 = Except.ok () ∨
      ∃ s, (a.log record lv).2 = Except.error (AsyncError.Fatal s)) ∧
    (a.core.blocking = false → (a.log record lv).2 = Except.ok ()) ∧
    (∀ a1 : Async, a.push_dropped lv = (a1, Except.ok ()) →
      AsyncCore.log a1.core record lv = Except.error AsyncError.Full →
      a.log record lv =
        (if a1.inc_dropped then { a1 with dropped := a1.dropped + 1 }
          else a1,
         Except.ok ())) := by
  refine ⟨?_, ?_, ?_⟩
  · rcases hpd : a.push_dropped lv with ⟨a1, res⟩
    cases res with
    | error e =>
      cases e with
      | Full =>
        exact absurd (by rw [hpd]) (push_dropped_not_full a lv)
      | Fatal s =>
        exact Or.inr ⟨s, by simp [Async.log, hpd]⟩
    | ok u =>
      cases hc : AsyncCore.log a1.core record lv with
      | ok core1 => exact Or.inl (by simp [Async.log, hpd, hc])
      | error e =>
        cases e with
        | Full =>
          refine Or.inl ?_
          cases hinc : a1.inc_dropped <;> simp [Async.log, hpd, hc, hinc]
        | Fatal s => exact Or.inr ⟨s, by simp [Async.log, hpd, hc]⟩
  · intro hb
    rcases hpd : a.push_dropped lv with ⟨a1, res⟩
    have hres : res = Except.ok () := by
      have hok := push_dropped_nonblocking_ok a lv hb
      rw [hpd] at hok
      exact hok
    subst hres
    have hb1 : a1.core.blocking = false := by
      have h2 := (push_dropped_flags a lv).2
      rw [hpd] at h2
      exact h2.trans hb
    cases hc : AsyncCore.log a1.core record lv with
    | ok core1 => simp [Async.log, hpd, hc]
    | error e =>
      have he : e = AsyncError.Full :=
        send_nonblocking_not_fatal a1.core _ e hb1 hc
      subst he
      cases hinc : a1.inc_dropped <;> simp [Async.log, hpd, hc, hinc]
  · intro a1 hpd hc
    cases hinc : a1.inc_dropped <;> simp [Async.log, hpd, hc, hinc]

/-- C10 witness: a fresh default-strategy facade accepts a record. -/
theorem facade_log_never_full_witness :
    ((buildAsync OverflowStrategy.DropAndReport 1).log
      (exInput Level.Info) []).2 = Except.ok () :=
  (facade_log_never_full (buildAsync OverflowStrategy.DropAndReport 1)
      (exInput Level.Info) []).2.1 rfl

/-! ## PID extraction -/

theorem emit_arguments_eq (ser : PidSerializer) (kv : String × String) :
    ser.emit_arguments kv.1 kv.2 =
      match pidOfEntry kv with
      | some id => { pid := some id }
      | none => ser := by
  unfold PidSerializer.emit_arguments pidOfEntry
  by_cases hk : kv.1 = PID_KEY <;> simp [hk]

theorem option_or_some (o : Option Nat) (b : Nat) :
    o.or (some b) = some (o.getD b) := by
  cases o <;> rfl

theorem pid_fold_or (lv : List (String × String)) (ser : PidSerializer) :
    (lv.foldl (fun (s : PidSerializer) kv => s.emit_arguments kv.1 kv.2)
      ser).pid =
      ((lv.filterMap pidOfEntry).getLast?).or ser.pid := by
  induction lv generalizing ser with
  | nil => rfl
  | cons kv rest ih =>
    rw [List.foldl_cons, List.filterMap_cons, emit_arguments_eq]
    cases hk : pidOfEntry kv with
    | none => simpa using ih ser
    | some id =>
      rw [ih { pid := some id }]
      simp [List.getLast?_cons, option_or_some]

theorem findPid_eq (lv : List (String × String)) :
    findPid lv = (lv.filterMap pidOfEntry).getLast? := by
  unfold findPid
  rw [pid_fold_or]
  simp [Option.or_none]

/-- C9.  The snapshot's PID comes exclusively from the logger-scoped
list: it is the last entry with key `PID_KEY` whose rendered value
parses as a `usize` (`none` when there is no such entry), and a record
whose PID is `none` bypasses the PID gate, leaving only the level
gate. -/
theorem pid_from_logger_values (record : RecordInput)
    (lv : List (String × String)) :
    ((AsyncRecord.ofRecord record lv).pid =
      (lv.filterMap pidOfEntry).getLast?) ∧
    (∀ st : WorkerState, (AsyncRecord.ofRecord record lv).pid = none →
      recordDelivered st (AsyncRecord.ofRecord record lv) =
        levelEmit st.emit_log_level record.level) := by
  constructor
  · exact findPid_eq lv
  · intro st hp
    have hp' : findPid lv = none := hp
    simp [recordDelivered, pidCheck, AsyncRecord.ofRecord, hp']

/-- C9 witness: a malformed entry, a non-`pid` key and two parseable
entries — the last parseable `pid` entry wins; and a PID-less record is
gated by the level alone. -/
theorem pid_from_logger_values_witness :
    ((AsyncRecord.ofRecord (exInput Level.Info)
        [(PID_KEY, "abc"), ("other", "7"), (PID_KEY, "42"), (PID_KEY, "9x")]).pid =
      ([(PID_KEY, "abc"), ("other", "7"), (PID_KEY, "42"),
        (PID_KEY, "9x")].filterMap pidOfEntry).getLast?) ∧
    recordDelivered workerInit (AsyncRecord.ofRecord (exInput Level.Info) []) =
      levelEmit workerInit.emit_log_level Level.Info :=
  ⟨(pid_from_logger_values (exInput Level.Info) _).1,
   (pid_from_logger_values (exInput Level.Info) []).2 workerInit (by decide)⟩

end SlogAsync
